import Mathlib

/-!
Shallow embedding of the TurkBBIai Flask backend (`src/projelerim/app.py`):
the per-client rate limiter, the credential rotator, the verification-code
lifecycle, the chat retry/failover loop, and error-message sanitization.

Python float timestamps (`time.time()`, `datetime.now()`) are modelled as
rationals on one common timeline; the process-global mutable tables
(`last_request_time`, `current_key_index`, `verification_codes`) are threaded
explicitly through the operations.  Network and randomness are inputs.
-/

namespace TurkBBai

/-- Timestamps and durations (Python float seconds) as rationals. -/
abbrev Time := ℚ

/-- The global `last_request_time` table (app.py line 95):
`defaultdict(lambda: defaultdict(float))`, keyed by client IP and then by
endpoint name, defaulting to `0.0` for pairs never seen. -/
abbrev RateTable := String → String → Time

/-- `check_rate_limit(endpoint, limit_seconds)` (app.py lines 108-130), with
the global table, the client IP (`get_client_ip()`) and the clock
(`time.time()`) made explicit.  Returns the `(allowed, remaining)` pair
together with the updated table. -/
def check_rate_limit (table : RateTable) (client_ip endpoint : String)
    (limit_seconds current_time : Time) : (Bool × Time) × RateTable :=
  let last_time := table client_ip endpoint
  let elapsed := current_time - last_time
  if elapsed < limit_seconds then
    ((false, limit_seconds - elapsed), table)
  else
    ((true, 0),
      fun ip ep => if ip = client_ip ∧ ep = endpoint then current_time else table ip ep)

/-- `API_KEYS[i]`: list indexing.  The startup invariant (app.py lines 63-71)
guarantees the key list is non-empty and every cursor stays in range, so the
default is never reached. -/
def currentKey (api_keys : List String) (i : Nat) : String :=
  api_keys.getD i ""

/-- `get_next_api_key()` (app.py lines 133-142), the global
`current_key_index` made explicit: moves the cursor to
`(current_key_index + 1) % len(API_KEYS)` and returns the new cursor together
with the key at it. -/
def get_next_api_key (api_keys : List String) (current_key_index : Nat) :
    Nat × String :=
  let idx := (current_key_index + 1) % api_keys.length
  (idx, currentKey api_keys idx)

/-- Cursor position after `n` successive `get_next_api_key()` calls. -/
def advanceN (api_keys : List String) : Nat → Nat → Nat
  | 0, i => i
  | n + 1, i => advanceN api_keys n (get_next_api_key api_keys i).1

lemma advanceN_eq (api_keys : List String) (hpos : 0 < api_keys.length) :
    ∀ n i, i < api_keys.length →
      advanceN api_keys n i = (i + n) % api_keys.length := by
  intro n
  induction n with
  | zero => intro i hi; simp [advanceN, Nat.mod_eq_of_lt hi]
  | succ n ih =>
    intro i hi
    have h1 : (i + 1) % api_keys.length < api_keys.length :=
      Nat.mod_lt _ hpos
    calc advanceN api_keys (n + 1) i
        = advanceN api_keys n ((i + 1) % api_keys.length) := rfl
      _ = ((i + 1) % api_keys.length + n) % api_keys.length := ih _ h1
      _ = (i + (n + 1)) % api_keys.length := by
          rw [Nat.mod_add_mod]; ring_nf

/-- Claim C6: one `get_next_api_key` call moves the cursor to
`(i + 1) % N` and returns the credential at that position, and `N` successive
calls return the cursor to its starting position, so the credential current
before the first call equals the credential current after the `N`-th call. -/
theorem C6_rotator_wraparound (api_keys : List String) (i : Nat)
    (hpos : 0 < api_keys.length) (hi : i < api_keys.length) :
    (get_next_api_key api_keys i).1 = (i + 1) % api_keys.length ∧
    (get_next_api_key api_keys i).2 =
      currentKey api_keys ((i + 1) % api_keys.length) ∧
    advanceN api_keys api_keys.length i = i ∧
    currentKey api_keys (advanceN api_keys api_keys.length i) =
      currentKey api_keys i := by
  have hN : advanceN api_keys api_keys.length i = i := by
    rw [advanceN_eq api_keys hpos _ i hi, Nat.add_mod_right, Nat.mod_eq_of_lt hi]
  exact ⟨rfl, rfl, hN, by rw [hN]⟩

/-- Concrete instance of C6: three keys, cursor at 1. -/
theorem C6_rotator_wraparound_witness :
    (get_next_api_key ["k1", "k2", "k3"] 1).1 = 2 ∧
    advanceN ["k1", "k2", "k3"] 3 1 = 1 := by
  have h := C6_rotator_wraparound ["k1", "k2", "k3"] 1 (by decide) (by decide)
  exact ⟨h.1, h.2.2.1⟩

/-- Claim C2 counterexample: a never-seen (client, category) pair is not
treated as infinitely-elapsed.  The table defaults to `0.0`, so with current
time `1` and threshold `5` a fresh pair is Rejected with remaining `4`,
where the claim requires Admitted. -/
theorem C2_never_seen_cex :
    (check_rate_limit (fun _ _ => 0) "203.0.113.7" "chat" 5 1).1 = (false, 4) := by
  norm_num [check_rate_limit]

/-- Claim C2 (amended): the last-admitted table defaults to time `0` for
never-seen pairs (so such a pair is admitted exactly when `now ≥ T`, not
unconditionally).  A check with elapsed `= now - last ≥ T` returns Admitted
and records `now` for exactly that (client, category) pair; a check with
elapsed `< T` returns Rejected with `remaining = T - elapsed`, where
`0 < remaining`, and `remaining ≤ T` whenever the recorded time is not in
the future (clock monotonicity), and leaves the table untouched. -/
theorem C2_rate_limiter (table : RateTable) (ip ep : String) (T now : Time)
    (hclock : table ip ep ≤ now) :
    (T ≤ now - table ip ep →
      check_rate_limit table ip ep T now =
        ((true, 0), fun ip' ep' =>
          if ip' = ip ∧ ep' = ep then now else table ip' ep')) ∧
    (now - table ip ep < T →
      (check_rate_limit table ip ep T now).1 =
          (false, T - (now - table ip ep)) ∧
      (check_rate_limit table ip ep T now).2 = table ∧
      0 < T - (now - table ip ep) ∧ T - (now - table ip ep) ≤ T) := by
  constructor
  · intro h
    unfold check_rate_limit
    rw [if_neg (not_lt.mpr h)]
  · intro h
    unfold check_rate_limit
    rw [if_pos h]
    refine ⟨rfl, rfl, by linarith, by linarith [sub_nonneg.mpr hclock]⟩

/-- Concrete instance of the amended C2: threshold 2, a fresh client checked
at time 3 is admitted and the time recorded; checked again at time 4
(elapsed 1 < 2) it is rejected with remaining 1, table untouched. -/
theorem C2_rate_limiter_witness :
    check_rate_limit (fun _ _ => 0) "198.51.100.1" "chat" 2 3 =
      ((true, 0), fun ip' ep' =>
        if ip' = "198.51.100.1" ∧ ep' = "chat" then 3
        else (fun _ _ => (0 : Time)) ip' ep') ∧
    (check_rate_limit
        (fun ip' ep' => if ip' = "198.51.100.1" ∧ ep' = "chat" then 3
          else (0 : Time)) "198.51.100.1" "chat" 2 4).1 = (false, 1) := by
  constructor
  · exact (C2_rate_limiter (fun _ _ => 0) "198.51.100.1" "chat" 2 3
      (by norm_num)).1 (by norm_num)
  · have h := (C2_rate_limiter
      (fun ip' ep' => if ip' = "198.51.100.1" ∧ ep' = "chat" then 3
        else (0 : Time)) "198.51.100.1" "chat" 2 4 (by norm_num)).2 (by norm_num)
    rw [h.1]
    norm_num

/-- One entry of the global `verification_codes` dict (app.py lines 209-212):
the 6-digit code string and its expiry timestamp (`now + 10 minutes`). -/
structure VRecord where
  code : String
  expires_at : Time
deriving DecidableEq

/-- The global `verification_codes` dict (app.py line 92), keyed by email. -/
abbrev CodeTable := String → Option VRecord

/-- Python `str.lower()`, modelled characterwise over the underlying list
(`String.toLower` itself is opaque to kernel reduction). -/
def lower (s : String) : String := ⟨s.data.map Char.toLower⟩

/-- `CREATOR_EMAIL = os.getenv('CREATOR_EMAIL', '').lower()` (app.py
line 60): the configured privileged address, lowercased once at startup. -/
def CREATOR_EMAIL (raw : String) : String := lower raw

/-- The four outcomes of the code-check portion of `verify_code()`. -/
inductive VerifyResult where
  | noSuchCode
  | expired
  | mismatch
  | success (is_creator : Bool)
deriving DecidableEq

/-- Code-check core of `verify_code()` (app.py lines 275-301), after request
parsing: the lookup, expiry test (`datetime.now() > stored['expires_at']`,
strict), exact string comparison of codes, deletions, and the
`is_creator = (email.lower() == CREATOR_EMAIL)` flag.  Returns the result
and the updated `verification_codes` table. -/
def verify_code (creator_email : String) (codes : CodeTable)
    (email code : String) (now : Time) : VerifyResult × CodeTable :=
  match codes email with
  | none => (.noSuchCode, codes)
  | some stored =>
    if stored.expires_at < now then
      (.expired, fun e => if e = email then none else codes e)
    else if stored.code ≠ code then
      (.mismatch, codes)
    else
      (.success (lower email == creator_email),
        fun e => if e = email then none else codes e)

/-- A `verification_codes` table holding exactly one record. -/
def codesAt (email : String) (rec : VRecord) : CodeTable :=
  fun e => if e = email then some rec else none

/-- Claim C5 counterexample: a verify made exactly at the expiry timestamp is
not Expired.  The code tests `datetime.now() > stored['expires_at']`
strictly, so with `expires_at = 100`, `now = 100` and a matching code the
attempt falls through to the comparison and yields Success. -/
theorem C5_at_expiry_cex :
    (verify_code "boss@x.com" (codesAt "a@x.com" ⟨"123456", 100⟩)
        "a@x.com" "123456" 100).1 = .success false ∧
    (verify_code "boss@x.com" (codesAt "a@x.com" ⟨"123456", 100⟩)
        "a@x.com" "123456" 100).1 ≠ .expired := by
  constructor
  · norm_num [verify_code, codesAt]
    decide
  · norm_num [verify_code, codesAt]
    decide

/-- Claim C5 (amended): a verify attempt made strictly after the record's
expiry timestamp yields Expired and deletes the record, so a subsequent
verify attempt for the same email yields NoSuchCode.  (At exactly the expiry
timestamp the record is not yet expired: the code's test is strict.) -/
theorem C5_expired_deletes (creator : String) (codes : CodeTable)
    (email code : String) (rec : VRecord) (now : Time)
    (hrec : codes email = some rec) (hexp : rec.expires_at < now) :
    (verify_code creator codes email code now).1 = .expired ∧
    (verify_code creator codes email code now).2 email = none ∧
    ∀ code' now', (verify_code creator
        (verify_code creator codes email code now).2 email code' now').1 =
      .noSuchCode := by
  have hstep : verify_code creator codes email code now =
      (.expired, fun e => if e = email then none else codes e) := by
    unfold verify_code
    rw [hrec]
    simp [hexp]
  refine ⟨by rw [hstep], by rw [hstep]; simp, ?_⟩
  intro code' now'
  rw [hstep]
  unfold verify_code
  simp

/-- Concrete instance of the amended C5: record expires at 100, verified at
101 with the right code: Expired, record gone, second verify NoSuchCode. -/
theorem C5_expired_deletes_witness :
    (verify_code "boss@x.com" (codesAt "a@x.com" ⟨"123456", 100⟩)
        "a@x.com" "123456" 101).1 = .expired ∧
    (verify_code "boss@x.com"
        (verify_code "boss@x.com" (codesAt "a@x.com" ⟨"123456", 100⟩)
          "a@x.com" "123456" 101).2 "a@x.com" "123456" 102).1 = .noSuchCode := by
  have h := C5_expired_deletes "boss@x.com" (codesAt "a@x.com" ⟨"123456", 100⟩)
    "a@x.com" "123456" ⟨"123456", 100⟩ 101 (by rfl) (by norm_num)
  exact ⟨h.1, h.2.2 "123456" 102⟩

/-- Claim C8: verifying with the exactly matching code before expiry yields
Success and deletes the record, so a second verify with the same email and
code yields NoSuchCode; the privileged-user flag is the case-insensitive
comparison of the email against the configured privileged address. -/
theorem C8_success_consumes (creatorRaw : String) (codes : CodeTable)
    (email code : String) (rec : VRecord) (now : Time)
    (hrec : codes email = some rec) (hnotexp : now < rec.expires_at)
    (hmatch : rec.code = code) :
    (verify_code (CREATOR_EMAIL creatorRaw) codes email code now).1 =
      .success (lower email == lower creatorRaw) ∧
    (verify_code (CREATOR_EMAIL creatorRaw) codes email code now).2 email =
      none ∧
    ∀ now', (verify_code (CREATOR_EMAIL creatorRaw)
        (verify_code (CREATOR_EMAIL creatorRaw) codes email code now).2
        email code now').1 = .noSuchCode := by
  have hne : ¬ rec.expires_at < now := not_lt.mpr (le_of_lt hnotexp)
  have hstep : verify_code (CREATOR_EMAIL creatorRaw) codes email code now =
      (.success (lower email == lower creatorRaw),
        fun e => if e = email then none else codes e) := by
    unfold verify_code
    rw [hrec]
    simp [hne, hmatch, CREATOR_EMAIL]
  refine ⟨by rw [hstep], by rw [hstep]; simp, ?_⟩
  intro now'
  rw [hstep]
  unfold verify_code
  simp

/-- Concrete instance of C8: matching code at time 50 (expiry 100) succeeds
with the privileged flag from case-insensitive comparison, and the second
verify yields NoSuchCode. -/
theorem C8_success_consumes_witness :
    (verify_code (CREATOR_EMAIL "Boss@X.com") (codesAt "bOSS@x.COM" ⟨"042137", 100⟩)
        "bOSS@x.COM" "042137" 50).1 = .success true ∧
    (verify_code (CREATOR_EMAIL "Boss@X.com")
        (verify_code (CREATOR_EMAIL "Boss@X.com")
          (codesAt "bOSS@x.COM" ⟨"042137", 100⟩) "bOSS@x.COM" "042137" 50).2
        "bOSS@x.COM" "042137" 60).1 = .noSuchCode := by
  have h := C8_success_consumes "Boss@X.com" (codesAt "bOSS@x.COM" ⟨"042137", 100⟩)
    "bOSS@x.COM" "042137" ⟨"042137", 100⟩ 50 (by rfl) (by norm_num) rfl
  refine ⟨?_, h.2.2 60⟩
  rw [h.1]
  decide

/-- Python `str.strip()` (no arguments): drop leading and trailing
whitespace, modelled characterwise over the underlying list. -/
def strip (s : String) : String :=
  ⟨((s.data.dropWhile Char.isWhitespace).reverse.dropWhile Char.isWhitespace).reverse⟩

/-- Python `c in s` membership of a single character in a string. -/
def containsChar (s : String) (c : Char) : Bool := s.data.contains c

/-- The process-global mutable state of the app (app.py lines 84-95):
`current_key_index`, `verification_codes` and `last_request_time`. -/
structure AppState where
  current_key_index : Nat
  verification_codes : CodeTable
  last_request_time : RateTable

/-- The distinguishable responses produced by the four route handlers (each
constructor corresponds to one of the pre-written response bodies / status
codes in app.py). -/
inductive Response where
  | rateLimited (remaining : Time)
  | validationError
  | emailNotConfigured
  | codeSent
  | deliveryFailure
  | verifyNoCode
  | verifyExpired
  | verifyMismatch
  | verifyOk (is_creator : Bool)
  | chatOk (payload : String)
  | chatApiError
  | chatTimeout
  | chatUnexpected
  | chatExhausted
  | imageLoading
  | imageOk (payload : String)
  | imageError
  | imageTimeout
  | imageUnexpected
deriving DecidableEq

/-- Outcome of the SMTP delivery attempt (app.py lines 234-236), made an
input: either the send succeeds or an exception is raised. -/
inductive SmtpResult where
  | ok
  | exc (msg : String)
deriving DecidableEq

/-- `send_code()` (app.py lines 172-243).  Explicit inputs: the
per-category threshold `RATE_LIMIT_EMAIL`, the client IP, the clock, the
request body (`none` for a missing/absent JSON body, then the optional
`email` field), the freshly generated 6-digit code
(`generate_verification_code()`, randomness as an input), whether both
Gmail credentials are configured, and the SMTP outcome.  The verification
record is stored (lines 209-212) before the try-block that sends email. -/
def send_code (rlEmail : Time) (st : AppState) (client_ip : String)
    (now : Time) (body : Option (Option String)) (code : String)
    (gmail_configured : Bool) (smtp : SmtpResult) : Response × AppState :=
  let ((allowed, remaining), table') :=
    check_rate_limit st.last_request_time client_ip "email" rlEmail now
  if !allowed then
    (.rateLimited remaining, st)
  else
    let st := { st with last_request_time := table' }
    match body with
    | none => (.validationError, st)
    | some none => (.validationError, st)
    | some (some raw) =>
      let email := strip raw
      if email = "" ∨ ¬ containsChar email '@' then (.validationError, st)
      else
        let st := { st with verification_codes :=
          fun e => if e = email then some ⟨code, now + 600⟩
                   else st.verification_codes e }
        if !gmail_configured then (.emailNotConfigured, st)
        else
          match smtp with
          | .ok => (.codeSent, st)
          | .exc _ => (.deliveryFailure, st)

/-- `verify_code()` route handler (app.py lines 246-301): request parsing
(missing body, missing/empty fields) followed by the `verify_code` core.
No rate-limit check appears anywhere on this path. -/
def verify_code_route (creator_email : String) (st : AppState)
    (body : Option (Option String × Option String)) (now : Time) :
    Response × AppState :=
  match body with
  | none => (.validationError, st)
  | some (emailField, codeField) =>
    let email := strip (emailField.getD "")
    let code := strip (codeField.getD "")
    if email = "" ∨ code = "" then (.validationError, st)
    else
      match verify_code creator_email st.verification_codes email code now with
      | (.noSuchCode, codes') =>
        (.verifyNoCode, { st with verification_codes := codes' })
      | (.expired, codes') =>
        (.verifyExpired, { st with verification_codes := codes' })
      | (.mismatch, codes') =>
        (.verifyMismatch, { st with verification_codes := codes' })
      | (.success flag, codes') =>
        (.verifyOk flag, { st with verification_codes := codes' })

/-- Outcome of one `requests.post` to the Gemini endpoint (app.py lines
350-360), made an input: an HTTP response with status and (if 200) the
extracted candidate text, a `requests.exceptions.Timeout`, or any other
exception. -/
inductive UpstreamResult where
  | http (status : Nat) (payload : String)
  | timeout
  | exc (msg : String)
deriving DecidableEq

/-- Terminal outcomes of the chat retry loop, one per distinct return site
of `chat()` (app.py lines 362-415). -/
inductive ChatOutcome where
  | succeeded (payload : String)
  | apiError
  | timeoutError
  | unexpectedError
  | exhausted
deriving DecidableEq

/-- The retry loop of `chat()` (app.py lines 343-415).  `send i` is the
upstream outcome of the `i`-th request actually issued (the network made
explicit); `cursor` mirrors the global `current_key_index`, `attempt` the
loop counter, and `fuel = N - attempt` renders the `while attempt < N`
bound structurally (`N = len(API_KEYS)`).  Status 429 rotates and retries;
any other non-200 status fails immediately; timeouts and other exceptions
rotate and retry only while `attempt < N - 1`.  Returns the outcome, the
list of cursor positions used (one per request issued, in order), and the
final cursor. -/
def chatGo (N : Nat) (send : Nat → UpstreamResult) :
    Nat → Nat → Nat → ChatOutcome × List Nat × Nat
  | cursor, _, 0 => (.exhausted, [], cursor)
  | cursor, attempt, fuel + 1 =>
    match send attempt with
    | .http s p =>
      if s = 429 then
        let r := chatGo N send ((cursor + 1) % N) (attempt + 1) fuel
        (r.1, cursor :: r.2.1, r.2.2)
      else if s ≠ 200 then (.apiError, [cursor], cursor)
      else (.succeeded p, [cursor], cursor)
    | .timeout =>
      if attempt < N - 1 then
        let r := chatGo N send ((cursor + 1) % N) (attempt + 1) fuel
        (r.1, cursor :: r.2.1, r.2.2)
      else (.timeoutError, [cursor], cursor)
    | .exc _ =>
      if attempt < N - 1 then
        let r := chatGo N send ((cursor + 1) % N) (attempt + 1) fuel
        (r.1, cursor :: r.2.1, r.2.2)
      else (.unexpectedError, [cursor], cursor)

/-- The whole retry phase of `chat()`: first request at the current cursor
(`api_key = API_KEYS[current_key_index]`, line 345), `attempt = 0`, budget
`N = len(API_KEYS)`. -/
def chat_attempts (N cursor0 : Nat) (send : Nat → UpstreamResult) :
    ChatOutcome × List Nat × Nat :=
  chatGo N send cursor0 0 N

/-- `chat()` route handler (app.py lines 304-415): rate gate, body
validation, the retry loop, and the write-back of the rotation cursor. -/
def chat_route (rlChat : Time) (N : Nat) (st : AppState) (client_ip : String)
    (now : Time) (body : Option (Option String))
    (send : Nat → UpstreamResult) : Response × AppState :=
  let ((allowed, remaining), table') :=
    check_rate_limit st.last_request_time client_ip "chat" rlChat now
  if !allowed then (.rateLimited remaining, st)
  else
    let st := { st with last_request_time := table' }
    match body with
    | none => (.validationError, st)
    | some none => (.validationError, st)
    | some (some raw) =>
      if strip raw = "" then (.validationError, st)
      else
        let r := chat_attempts N st.current_key_index send
        let resp : Response :=
          match r.1 with
          | .succeeded p => .chatOk p
          | .apiError => .chatApiError
          | .timeoutError => .chatTimeout
          | .unexpectedError => .chatUnexpected
          | .exhausted => .chatExhausted
        (resp, { st with current_key_index := r.2.2 })

/-- Outcome of the single `requests.get` to the image provider (app.py
lines 454-501), made an input. -/
inductive ImageUpstream where
  | http (status : Nat) (content : String)
  | timeout
  | exc (msg : String)
deriving DecidableEq

/-- `generate_image()` (app.py lines 418-501): rate gate, prompt
validation, then one image request.  `response.ok` is `status < 400`; the
base64 data-URL encoding of the downloaded bytes is kept abstract (the
payload is carried through unchanged). -/
def generate_image (rlImage : Time) (st : AppState) (client_ip : String)
    (now : Time) (body : Option (Option String)) (upstream : ImageUpstream) :
    Response × AppState :=
  let ((allowed, remaining), table') :=
    check_rate_limit st.last_request_time client_ip "image" rlImage now
  if !allowed then (.rateLimited remaining, st)
  else
    let st := { st with last_request_time := table' }
    match body with
    | none => (.validationError, st)
    | some none => (.validationError, st)
    | some (some raw) =>
      if strip raw = "" then (.validationError, st)
      else
        match upstream with
        | .http status content =>
          if status = 503 then (.imageLoading, st)
          else if ¬ status < 400 then (.imageError, st)
          else (.imageOk content, st)
        | .timeout => (.imageTimeout, st)
        | .exc _ => (.imageUnexpected, st)

lemma cursorTrace_shift (N cursor : Nat) (hc : cursor < N) (fuel : Nat) :
    cursor :: (List.range fuel).map (fun t => ((cursor + 1) % N + t) % N) =
      (List.range (fuel + 1)).map (fun t => (cursor + t) % N) := by
  rw [List.range_succ_eq_map, List.map_cons, List.map_map]
  refine congrArg₂ _ (by simp [Nat.mod_eq_of_lt hc]) ?_
  refine congrArg₂ _ ?_ rfl
  funext t
  simp only [Function.comp_apply]
  rw [Nat.mod_add_mod]
  congr 1
  omega

lemma cursorFinal_shift (N cursor k : Nat) :
    ((cursor + 1) % N + k) % N = (cursor + (k + 1)) % N := by
  rw [Nat.mod_add_mod]
  congr 1
  omega

lemma chatGo_all_quota (N : Nat) (send : Nat → UpstreamResult)
    (hq : ∀ i, i < N → ∃ p, send i = .http 429 p) :
    ∀ fuel attempt cursor, cursor < N → fuel = N - attempt →
      chatGo N send cursor attempt fuel =
        (.exhausted, (List.range fuel).map (fun t => (cursor + t) % N),
          (cursor + fuel) % N) := by
  intro fuel
  induction fuel with
  | zero =>
    intro attempt cursor hc _
    simp [chatGo, Nat.mod_eq_of_lt hc]
  | succ fuel ih =>
    intro attempt cursor hc hf
    have hN : 0 < N := by omega
    have hatt : attempt < N := by omega
    obtain ⟨p, hp⟩ := hq attempt hatt
    have hrec := ih (attempt + 1) ((cursor + 1) % N) (Nat.mod_lt _ hN) (by omega)
    simp only [chatGo, hp, reduceIte]
    rw [hrec]
    simp only [Prod.mk.injEq]
    exact ⟨trivial, cursorTrace_shift N cursor hc fuel,
      cursorFinal_shift N cursor fuel⟩

lemma chatGo_success (N : Nat) (send : Nat → UpstreamResult) (j : Nat)
    (payload : String) (hj : j < N)
    (hq : ∀ i, i < j → ∃ p, send i = .http 429 p)
    (hok : send j = .http 200 payload) :
    ∀ fuel attempt cursor, cursor < N → fuel = N - attempt → attempt ≤ j →
      chatGo N send cursor attempt fuel =
        (.succeeded payload,
          (List.range (j - attempt + 1)).map (fun t => (cursor + t) % N),
          (cursor + (j - attempt)) % N) := by
  intro fuel
  induction fuel with
  | zero =>
    intro attempt cursor _ hf haj
    omega
  | succ fuel ih =>
    intro attempt cursor hc hf haj
    have hN : 0 < N := by omega
    by_cases hev : attempt = j
    · subst hev
      simp [chatGo, hok, Nat.mod_eq_of_lt hc, Nat.sub_self, List.range_succ]
    · have hlt : attempt < j := by omega
      obtain ⟨p, hp⟩ := hq attempt hlt
      have hrec := ih (attempt + 1) ((cursor + 1) % N) (Nat.mod_lt _ hN)
        (by omega) (by omega)
      simp only [chatGo, hp, reduceIte]
      rw [hrec]
      have hsub : j - attempt = (j - (attempt + 1)) + 1 := by omega
      rw [hsub]
      simp only [Prod.mk.injEq]
      exact ⟨trivial, cursorTrace_shift N cursor hc (j - (attempt + 1) + 1),
        cursorFinal_shift N cursor (j - (attempt + 1))⟩

lemma chatGo_all_timeout (N : Nat) (send : Nat → UpstreamResult)
    (ht : ∀ i, i < N → send i = .timeout) :
    ∀ fuel attempt cursor, cursor < N → fuel = N - attempt → attempt < N →
      chatGo N send cursor attempt fuel =
        (.timeoutError, (List.range fuel).map (fun t => (cursor + t) % N),
          (cursor + fuel - 1) % N) := by
  intro fuel
  induction fuel with
  | zero =>
    intro attempt cursor _ hf hatt
    omega
  | succ fuel ih =>
    intro attempt cursor hc hf hatt
    have hN : 0 < N := by omega
    by_cases hlast : attempt < N - 1
    · have hrec := ih (attempt + 1) ((cursor + 1) % N) (Nat.mod_lt _ hN)
        (by omega) (by omega)
      have hfuel1 : 1 ≤ fuel := by omega
      simp only [chatGo, ht attempt hatt, hlast, reduceIte, if_pos]
      rw [hrec]
      simp only [Prod.mk.injEq]
      refine ⟨trivial, cursorTrace_shift N cursor hc fuel, ?_⟩
      rw [show (cursor + 1) % N + fuel - 1 = (cursor + 1) % N + (fuel - 1) from
          by omega, Nat.mod_add_mod]
      congr 1
      omega
    · have hA : attempt = N - 1 := by omega
      have hfuel0 : fuel = 0 := by omega
      subst hfuel0
      simp [chatGo, ht attempt hatt, hlast, Nat.mod_eq_of_lt hc, List.range_succ]

/-- Claim C1: on a quota-exhausted (HTTP 429) upstream signal the chat loop
advances the rotator and retries while the attempt count is below
`N = len(API_KEYS)`; if all `N` attempts report 429 the result is the
distinct Exhausted outcome after exactly `N` attempts (the trace of cursors
used is `[c0, c0+1, …] mod N` of length `N`, no further attempt); if the
`j`-th attempt returns 200 after `j` quota failures the result is Succeeded
with that attempt's payload after exactly `j + 1` attempts. -/
theorem C1_chat_failover (N cursor0 : Nat) (send : Nat → UpstreamResult)
    (hN : 0 < N) (hc : cursor0 < N) :
    ((∀ i, i < N → ∃ p, send i = .http 429 p) →
      (chat_attempts N cursor0 send).1 = .exhausted ∧
      (chat_attempts N cursor0 send).2.1 =
        (List.range N).map (fun t => (cursor0 + t) % N)) ∧
    (∀ j payload, j < N → (∀ i, i < j → ∃ p, send i = .http 429 p) →
      send j = .http 200 payload →
      (chat_attempts N cursor0 send).1 = .succeeded payload ∧
      (chat_attempts N cursor0 send).2.1 =
        (List.range (j + 1)).map (fun t => (cursor0 + t) % N)) := by
  constructor
  · intro hq
    have h := chatGo_all_quota N send hq N 0 cursor0 hc (by omega)
    unfold chat_attempts
    rw [h]
    exact ⟨rfl, rfl⟩
  · intro j payload hj hq hok
    have h := chatGo_success N send j payload hj hq hok N 0 cursor0 hc
      (by omega) (by omega)
    unfold chat_attempts
    rw [h]
    exact ⟨rfl, by rw [Nat.sub_zero]⟩

/-- Concrete instance of C1: three credentials, 429 on the first two
attempts, 200 on the third: Succeeded with the third attempt's payload,
cursor trace `[0, 1, 2]` (third credential used on the third attempt). -/
theorem C1_chat_failover_witness :
    (chat_attempts 3 0
        (fun i => if i < 2 then .http 429 "quota" else .http 200 "hi")).1 =
      .succeeded "hi" ∧
    (chat_attempts 3 0
        (fun i => if i < 2 then .http 429 "quota" else .http 200 "hi")).2.1 =
      [0, 1, 2] := by
  have h := (C1_chat_failover 3 0
      (fun i => if i < 2 then .http 429 "quota" else .http 200 "hi")
      (by decide) (by decide)).2 2 "hi" (by decide)
      (fun i hi => ⟨"quota", by simp [hi]⟩) (by simp)
  refine ⟨h.1, ?_⟩
  rw [h.2]
  decide

/-- Claim C4 counterexample: with 2 credentials and a timeout on every
attempt the loop makes 2 attempts and returns the timeout failure
(HTTP 500 "request timed out"), while 2 consecutive 429s end in the
Exhausted outcome (HTTP 503) — the two terminal outcomes differ. -/
theorem C4_timeout_outcome_cex :
    chat_attempts 2 0 (fun _ => .timeout) = (.timeoutError, [0, 1], 1) ∧
    chat_attempts 2 0 (fun _ => .http 429 "q") = (.exhausted, [0, 1], 0) ∧
    ChatOutcome.timeoutError ≠ ChatOutcome.exhausted := by
  refine ⟨by decide, by decide, by decide⟩

/-- Claim C4 (amended): a transport timeout triggers the same rotate-and-
retry policy as quota exhaustion, bounded by `N` attempts — when every
attempt times out the loop makes exactly `N` attempts with the identical
cursor trace as `N` consecutive 429s — but the terminal outcome is the
timeout failure (HTTP 500), not the all-credentials-Exhausted outcome
(HTTP 503). -/
theorem C4_timeout_retry_policy (N cursor0 : Nat) (send : Nat → UpstreamResult)
    (hN : 0 < N) (hc : cursor0 < N) (ht : ∀ i, i < N → send i = .timeout) :
    (chat_attempts N cursor0 send).1 = .timeoutError ∧
    (chat_attempts N cursor0 send).2.1 =
      (List.range N).map (fun t => (cursor0 + t) % N) ∧
    (chat_attempts N cursor0 send).2.1 =
      (chat_attempts N cursor0 (fun _ => .http 429 "q")).2.1 ∧
    (chat_attempts N cursor0 send).1 ≠
      (chat_attempts N cursor0 (fun _ => .http 429 "q")).1 := by
  have h := chatGo_all_timeout N send ht N 0 cursor0 hc (by omega) hN
  have h429 := chatGo_all_quota N (fun _ => .http 429 "q")
    (fun i _ => ⟨"q", rfl⟩) N 0 cursor0 hc (by omega)
  unfold chat_attempts
  rw [h, h429]
  exact ⟨rfl, rfl, rfl, by simp⟩

/-- Concrete instance of the amended C4: 2 credentials, both time out. -/
theorem C4_timeout_retry_policy_witness :
    (chat_attempts 2 0 (fun _ => .timeout)).1 = .timeoutError ∧
    (chat_attempts 2 0 (fun _ => .timeout)).2.1 = [0, 1] := by
  have h := C4_timeout_retry_policy 2 0 (fun _ => .timeout)
    (by decide) (by decide) (fun _ _ => rfl)
  refine ⟨h.1, ?_⟩
  rw [h.2.1]
  decide

lemma send_code_stores (rl : Time) (st : AppState) (ip : String) (now : Time)
    (raw code : String) (gm : Bool) (smtp : SmtpResult)
    (hadm : ¬ now - st.last_request_time ip "email" < rl)
    (hne : strip raw ≠ "") (hat : containsChar (strip raw) '@' = true) :
    (send_code rl st ip now (some (some raw)) code gm smtp).2.verification_codes =
      (fun e => if e = strip raw then some ⟨code, now + 600⟩
                else st.verification_codes e) ∧
    (send_code rl st ip now (some (some raw)) code gm smtp).2.last_request_time =
      (fun ip' ep' => if ip' = ip ∧ ep' = "email" then now
                      else st.last_request_time ip' ep') ∧
    (send_code rl st ip now (some (some raw)) code gm smtp).2.current_key_index =
      st.current_key_index := by
  unfold send_code check_rate_limit
  rw [if_neg hadm]
  simp only [Bool.not_true, Bool.false_eq_true, if_false]
  rw [if_neg (by simp [hne, hat])]
  cases gm
  · exact ⟨rfl, rfl, rfl⟩
  · cases smtp
    · exact ⟨rfl, rfl, rfl⟩
    · exact ⟨rfl, rfl, rfl⟩

lemma send_code_rejects (rl : Time) (st : AppState) (ip : String) (now : Time)
    (body : Option (Option String)) (code : String) (gm : Bool)
    (smtp : SmtpResult) (hrej : now - st.last_request_time ip "email" < rl) :
    send_code rl st ip now body code gm smtp =
      (.rateLimited (rl - (now - st.last_request_time ip "email")), st) := by
  unfold send_code check_rate_limit
  rw [if_pos hrej]
  rfl

/-- Claim C7 counterexample: if the second issuance happens to generate the
same 6-digit code as the first (possible: digits are drawn independently,
repeats allowed), verifying with the "first" code after the re-issue yields
Success, not Mismatch. -/
theorem C7_same_code_cex :
    (verify_code "boss@x.com"
        (send_code 30
          (send_code 30 ⟨0, fun _ => none, fun _ _ => 0⟩ "ip" 100
            (some (some "a@x.com")) "123456" true .ok).2
          "ip" 200 (some (some "a@x.com")) "123456" true .ok).2.verification_codes
        "a@x.com" "123456" 300).1 = .success false ∧
    (verify_code "boss@x.com"
        (send_code 30
          (send_code 30 ⟨0, fun _ => none, fun _ _ => 0⟩ "ip" 100
            (some (some "a@x.com")) "123456" true .ok).2
          "ip" 200 (some (some "a@x.com")) "123456" true .ok).2.verification_codes
        "a@x.com" "123456" 300).1 ≠ .mismatch := by
  have hs : strip "a@x.com" = "a@x.com" := by decide
  have h1 := send_code_stores 30 ⟨0, fun _ => none, fun _ _ => 0⟩ "ip" 100
    "a@x.com" "123456" true .ok (by norm_num) (by decide) (by decide)
  have h2 := send_code_stores 30
    (send_code 30 ⟨0, fun _ => none, fun _ _ => 0⟩ "ip" 100
      (some (some "a@x.com")) "123456" true .ok).2 "ip" 200 "a@x.com" "123456"
    true .ok (by rw [h1.2.1]; norm_num) (by decide) (by decide)
  have hrec : (send_code 30
      (send_code 30 ⟨0, fun _ => none, fun _ _ => 0⟩ "ip" 100
        (some (some "a@x.com")) "123456" true .ok).2 "ip" 200
      (some (some "a@x.com")) "123456" true .ok).2.verification_codes
      "a@x.com" = some ⟨"123456", 200 + 600⟩ := by
    rw [h2.1, hs]
    simp
  have hv : (verify_code "boss@x.com"
      (send_code 30
        (send_code 30 ⟨0, fun _ => none, fun _ _ => 0⟩ "ip" 100
          (some (some "a@x.com")) "123456" true .ok).2
        "ip" 200 (some (some "a@x.com")) "123456" true .ok).2.verification_codes
      "a@x.com" "123456" 300).1 = .success false := by
    unfold verify_code
    rw [hrec]
    have hnl : ¬ ((200 : Time) + 600 < 300) := by norm_num
    simp [hnl]
    decide
  exact ⟨hv, by rw [hv]; decide⟩

/-- Claim C7 (amended): issuing a verification code and then issuing a second
one for the same email before any verification overwrites the stored record,
so that — provided the second generated code differs from the first (the
independent uniform digits may repeat the same code) — a subsequent verify
with the first code before the new record's expiry yields Mismatch, not
Success. -/
theorem C7_reissue_invalidates (rl : Time) (st : AppState) (ip1 ip2 : String)
    (t1 t2 t3 : Time) (raw c1 c2 creator : String) (gm1 gm2 : Bool)
    (s1 s2 : SmtpResult)
    (hne : strip raw ≠ "") (hat : containsChar (strip raw) '@' = true)
    (hadm1 : ¬ t1 - st.last_request_time ip1 "email" < rl)
    (hadm2 : ¬ t2 - (send_code rl st ip1 t1 (some (some raw)) c1 gm1
      s1).2.last_request_time ip2 "email" < rl)
    (hdiff : c1 ≠ c2) (hnotexp : ¬ t2 + 600 < t3) :
    (send_code rl (send_code rl st ip1 t1 (some (some raw)) c1 gm1 s1).2 ip2 t2
        (some (some raw)) c2 gm2 s2).2.verification_codes (strip raw) =
      some ⟨c2, t2 + 600⟩ ∧
    (verify_code creator
        (send_code rl (send_code rl st ip1 t1 (some (some raw)) c1 gm1 s1).2
          ip2 t2 (some (some raw)) c2 gm2 s2).2.verification_codes
        (strip raw) c1 t3).1 = .mismatch := by
  have h2 := send_code_stores rl (send_code rl st ip1 t1 (some (some raw)) c1
    gm1 s1).2 ip2 t2 raw c2 gm2 s2 hadm2 hne hat
  have hstore : (send_code rl (send_code rl st ip1 t1 (some (some raw)) c1 gm1
      s1).2 ip2 t2 (some (some raw)) c2 gm2 s2).2.verification_codes
      (strip raw) = some ⟨c2, t2 + 600⟩ := by
    rw [h2.1]
    simp
  refine ⟨hstore, ?_⟩
  unfold verify_code
  rw [hstore]
  simp [hnotexp, Ne.symm hdiff]

/-- Concrete instance of the amended C7: codes 111111 then 222222 for the
same email; verifying with the first code yields Mismatch. -/
theorem C7_reissue_invalidates_witness :
    (verify_code "boss@x.com"
        (send_code 30
          (send_code 30 ⟨0, fun _ => none, fun _ _ => 0⟩ "ip" 100
            (some (some "a@x.com")) "111111" true .ok).2
          "ip" 200 (some (some "a@x.com")) "222222" true .ok).2.verification_codes
        "a@x.com" "111111" 300).1 = .mismatch := by
  have hs : strip "a@x.com" = "a@x.com" := by decide
  have h1 := send_code_stores 30 ⟨0, fun _ => none, fun _ _ => 0⟩ "ip" 100
    "a@x.com" "111111" true .ok (by norm_num) (by decide) (by decide)
  have h := C7_reissue_invalidates 30 ⟨0, fun _ => none, fun _ _ => 0⟩ "ip" "ip"
    100 200 300 "a@x.com" "111111" "222222" "boss@x.com" true true .ok .ok
    (by decide) (by decide) (by norm_num) (by rw [h1.2.1]; norm_num)
    (by decide) (by norm_num)
  rw [hs] at h
  exact h.2

/-- Claim C10: `send_code` stores the fresh verification record (code, expiry
`now + 600` s) before attempting email delivery, so whatever the delivery
outcome — including an SMTP failure reported as DeliveryFailure — the new
record is in the table and any prior record for that email has been
overwritten. -/
theorem C10_store_before_delivery (rl : Time) (st : AppState) (ip : String)
    (now : Time) (raw code : String) (gm : Bool) (smtp : SmtpResult)
    (hadm : ¬ now - st.last_request_time ip "email" < rl)
    (hne : strip raw ≠ "") (hat : containsChar (strip raw) '@' = true) :
    (send_code rl st ip now (some (some raw)) code gm smtp).2.verification_codes
        (strip raw) = some ⟨code, now + 600⟩ ∧
    (∀ msg, smtp = .exc msg → gm = true →
      (send_code rl st ip now (some (some raw)) code gm smtp).1 =
        .deliveryFailure) := by
  have h := send_code_stores rl st ip now raw code gm smtp hadm hne hat
  constructor
  · rw [h.1]
    simp
  · intro msg hsmtp hgm
    subst hsmtp
    subst hgm
    unfold send_code check_rate_limit
    rw [if_neg hadm]
    simp only [Bool.not_true, Bool.false_eq_true, if_false]
    rw [if_neg (by simp [hne, hat])]

/-- Concrete instance of C10: SMTP delivery raises, yet the record is stored
and the response is DeliveryFailure. -/
theorem C10_store_before_delivery_witness :
    (send_code 30 ⟨0, fun _ => none, fun _ _ => 0⟩ "ip" 100
        (some (some "a@x.com")) "123456" true (.exc "boom")).2.verification_codes
      "a@x.com" = some ⟨"123456", 700⟩ ∧
    (send_code 30 ⟨0, fun _ => none, fun _ _ => 0⟩ "ip" 100
        (some (some "a@x.com")) "123456" true (.exc "boom")).1 =
      .deliveryFailure := by
  have h := C10_store_before_delivery 30 ⟨0, fun _ => none, fun _ _ => 0⟩ "ip"
    100 "a@x.com" "123456" true (.exc "boom") (by norm_num) (by decide)
    (by decide)
  have hs : strip "a@x.com" = "a@x.com" := by decide
  rw [hs] at h
  exact ⟨by rw [h.1]; norm_num, h.2 "boom" rfl rfl⟩

lemma chat_route_rejects (rl : Time) (N : Nat) (st : AppState) (ip : String)
    (now : Time) (body : Option (Option String)) (send : Nat → UpstreamResult)
    (hrej : now - st.last_request_time ip "chat" < rl) :
    chat_route rl N st ip now body send =
      (.rateLimited (rl - (now - st.last_request_time ip "chat")), st) := by
  unfold chat_route check_rate_limit
  rw [if_pos hrej]
  rfl

lemma generate_image_rejects (rl : Time) (st : AppState) (ip : String)
    (now : Time) (body : Option (Option String)) (up : ImageUpstream)
    (hrej : now - st.last_request_time ip "image" < rl) :
    generate_image rl st ip now body up =
      (.rateLimited (rl - (now - st.last_request_time ip "image")), st) := by
  unfold generate_image check_rate_limit
  rw [if_pos hrej]
  rfl

/-- Claim C9: the `/verify-code` handler performs no rate limiting: it never
returns a RateLimited outcome, it leaves the rate-limit table (and rotation
cursor) untouched, and its response and code-table effect are independent of
the rate-limit table's contents; by contrast the code-issuance, chat, and
image handlers all consult the limiter (each returns RateLimited with the
remaining wait whenever the elapsed time is below its threshold). -/
theorem C9_verify_no_rate_limit (creator : String) (st : AppState)
    (body : Option (Option String × Option String)) (now : Time) :
    (∀ q, (verify_code_route creator st body now).1 ≠ .rateLimited q) ∧
    (verify_code_route creator st body now).2.last_request_time =
      st.last_request_time ∧
    (verify_code_route creator st body now).2.current_key_index =
      st.current_key_index ∧
    (∀ rt' : RateTable,
      verify_code_route creator { st with last_request_time := rt' } body now =
        ((verify_code_route creator st body now).1,
          { (verify_code_route creator st body now).2 with
              last_request_time := rt' })) ∧
    (∀ rl t ip body' code gm smtp, t - st.last_request_time ip "email" < rl →
      (send_code rl st ip t body' code gm smtp).1 =
        .rateLimited (rl - (t - st.last_request_time ip "email"))) ∧
    (∀ rl N t ip body' send, t - st.last_request_time ip "chat" < rl →
      (chat_route rl N st ip t body' send).1 =
        .rateLimited (rl - (t - st.last_request_time ip "chat"))) ∧
    (∀ rl t ip body' up, t - st.last_request_time ip "image" < rl →
      (generate_image rl st ip t body' up).1 =
        .rateLimited (rl - (t - st.last_request_time ip "image"))) := by
  refine ⟨?_, ?_, ?_, ?_,
    fun rl t ip body' code gm smtp h => by rw [send_code_rejects rl st ip t body' code gm smtp h],
    fun rl N t ip body' send h => by rw [chat_route_rejects rl N st ip t body' send h],
    fun rl t ip body' up h => by rw [generate_image_rejects rl st ip t body' up h]⟩
  · intro q
    unfold verify_code_route
    rcases body with _ | ⟨e, c⟩
    · simp
    · dsimp only
      by_cases h : strip (e.getD "") = "" ∨ strip (c.getD "") = ""
      · rw [if_pos h]
        simp
      · rw [if_neg h]
        rcases hv : verify_code creator st.verification_codes
          (strip (e.getD "")) (strip (c.getD "")) now with ⟨r, codes'⟩
        cases r <;> simp
  · unfold verify_code_route
    rcases body with _ | ⟨e, c⟩
    · rfl
    · dsimp only
      by_cases h : strip (e.getD "") = "" ∨ strip (c.getD "") = ""
      · rw [if_pos h]
      · rw [if_neg h]
        rcases hv : verify_code creator st.verification_codes
          (strip (e.getD "")) (strip (c.getD "")) now with ⟨r, codes'⟩
        cases r <;> rfl
  · unfold verify_code_route
    rcases body with _ | ⟨e, c⟩
    · rfl
    · dsimp only
      by_cases h : strip (e.getD "") = "" ∨ strip (c.getD "") = ""
      · rw [if_pos h]
      · rw [if_neg h]
        rcases hv : verify_code creator st.verification_codes
          (strip (e.getD "")) (strip (c.getD "")) now with ⟨r, codes'⟩
        cases r <;> rfl
  · intro rt'
    unfold verify_code_route
    rcases body with _ | ⟨e, c⟩
    · rfl
    · dsimp only
      by_cases h : strip (e.getD "") = "" ∨ strip (c.getD "") = ""
      · rw [if_pos h, if_pos h]
      · rw [if_neg h, if_neg h]
        rcases hv : verify_code creator st.verification_codes
          (strip (e.getD "")) (strip (c.getD "")) now with ⟨r, codes'⟩
        cases r <;> rfl

/-- Concrete instance of C9: a verify request is never rate-limited even at
elapsed 0, while a code-issuance request at elapsed 10 < 30 is rejected with
remaining 20. -/
theorem C9_verify_no_rate_limit_witness :
    (verify_code_route "boss@x.com" ⟨0, fun _ => none, fun _ _ => 0⟩
        (some (some "a@x.com", some "123456")) 0).1 ≠ .rateLimited 7 ∧
    (send_code 30 ⟨0, fun _ => none, fun _ _ => 0⟩ "ip" 10 none "" true
        .ok).1 = .rateLimited 20 := by
  have h := C9_verify_no_rate_limit "boss@x.com" ⟨0, fun _ => none, fun _ _ => 0⟩
    (some (some "a@x.com", some "123456")) 0
  refine ⟨h.1 7, ?_⟩
  have h2 := h.2.2.2.2.1 30 10 "ip" none "" true .ok (by norm_num)
  rw [h2]
  norm_num

/-- The fixed redaction marker `'***HIDDEN***'` (app.py lines 159 and 163),
as a character list. -/
def HIDDEN : List Char :=
  ['*', '*', '*', 'H', 'I', 'D', 'D', 'E', 'N', '*', '*', '*']

/-- Python `str.replace(pat, rep)` on character lists: replace the leftmost
non-overlapping occurrences in one left-to-right pass, never rescanning the
inserted replacement.  Written with explicit fuel (an upper bound on the
scanned length) so the recursion is structural; each step consumes at least
one character, so `fuel = s.length` always suffices. -/
def replaceAllGo (p r : List Char) : Nat → List Char → List Char
  | 0, s => s
  | _, [] => []
  | fuel + 1, c :: s =>
    if !p.isEmpty && p.isPrefixOf (c :: s) then
      r ++ replaceAllGo p r fuel ((c :: s).drop p.length)
    else
      c :: replaceAllGo p r fuel s

/-- Python `s.replace(p, r)` (all occurrences, one pass).
`sanitize_error_message` never reaches this with an empty pattern: the key
list holds stripped non-empty keys and the password is guarded by Python
truthiness. -/
def replaceAll (p r s : List Char) : List Char := replaceAllGo p r s.length s

/-- `sanitize_error_message(error)` (app.py lines 150-165): the error string
with every API key replaced by the marker in list order, then the Gmail app
password (guarded by `if GMAIL_APP_PASSWORD:` — Python truthiness, so an
unset or empty password is skipped).  Strings are character lists. -/
def sanitize_error_message (api_keys : List (List Char))
    (gmail_app_password : List Char) (error : List Char) : List Char :=
  let s := api_keys.foldl (fun acc k => replaceAll k HIDDEN acc) error
  if !gmail_app_password.isEmpty then replaceAll gmail_app_password HIDDEN s
  else s

lemma infixOfPfx {q s : List Char} (h : q <+: s) : q <:+: s := by
  obtain ⟨t, ht⟩ := h
  exact ⟨[], t, by simpa using ht⟩

lemma infixOfDrop {q s : List Char} {n : Nat} (h : q <:+: s.drop n) :
    q <:+: s := by
  obtain ⟨s1, t1, h1⟩ := h
  refine ⟨s.take n ++ s1, t1, ?_⟩
  calc s.take n ++ s1 ++ q ++ t1 = s.take n ++ (s1 ++ q ++ t1) := by
        simp [List.append_assoc]
    _ = s.take n ++ s.drop n := by rw [h1]
    _ = s := List.take_append_drop n s

lemma infixCons {q t : List Char} (c : Char) (h : q <:+: t) :
    q <:+: c :: t := by
  obtain ⟨s1, t1, h1⟩ := h
  exact ⟨c :: s1, t1, by rw [List.cons_append, List.cons_append, h1]⟩

lemma infixConsSplit {q : List Char} {c : Char} {t : List Char}
    (h : q <:+: c :: t) : q <+: c :: t ∨ q <:+: t := by
  obtain ⟨s, u, hsu⟩ := h
  cases s with
  | nil => exact Or.inl ⟨u, by simpa using hsu⟩
  | cons d s' =>
    have hd : d = c ∧ s' ++ q ++ u = t := by simpa using hsu
    exact Or.inr ⟨s', u, hd.2⟩

lemma pfxAppendSplit : ∀ (a : List Char) {q t : List Char},
    q <+: a ++ t → q <+: a ∨ a <+: q := by
  intro a
  induction a with
  | nil => exact fun _ => Or.inr List.nil_prefix
  | cons x a' ih =>
    intro q t h
    cases q with
    | nil => exact Or.inl List.nil_prefix
    | cons y q' =>
      rw [List.cons_append] at h
      obtain ⟨hy, hq'⟩ := List.cons_prefix_cons.mp h
      rcases ih hq' with h1 | h1
      · exact Or.inl (by rw [hy]; exact List.cons_prefix_cons.mpr ⟨rfl, h1⟩)
      · exact Or.inr (by rw [hy]; exact List.cons_prefix_cons.mpr ⟨rfl, h1⟩)

lemma infixAppendSplit : ∀ (a : List Char) {q t : List Char},
    q <:+: a ++ t →
      q <:+: a ∨ q <:+: t ∨ ∃ a2 q2, a2 ≠ [] ∧ a2 <:+ a ∧ q = a2 ++ q2 := by
  intro a
  induction a with
  | nil => intro q t h; exact Or.inr (Or.inl (by simpa using h))
  | cons x a' ih =>
    intro q t h
    rw [List.cons_append] at h
    rcases infixConsSplit h with h1 | h1
    · rcases pfxAppendSplit (x :: a') h1 with h2 | h2
      · exact Or.inl (infixOfPfx h2)
      · obtain ⟨q2, hq2⟩ := h2
        exact Or.inr (Or.inr ⟨x :: a', q2, by simp, List.suffix_refl _,
          hq2.symm⟩)
    · rcases ih h1 with h2 | h2 | h2
      · exact Or.inl (infixCons x h2)
      · exact Or.inr (Or.inl h2)
      · obtain ⟨a2, q2, hne2, hsuf, heq⟩ := h2
        exact Or.inr (Or.inr ⟨a2, q2, hne2,
          hsuf.trans (List.suffix_cons x a'), heq⟩)

lemma starMemOfSuffix {a2 : List Char} (hne : a2 ≠ []) (hsuf : a2 <:+ HIDDEN) :
    '*' ∈ a2 := by
  have h1 : a2.reverse <+: HIDDEN.reverse := List.reverse_prefix.mpr hsuf
  cases hrev : a2.reverse with
  | nil =>
    exact absurd (by simpa using congrArg List.reverse hrev) hne
  | cons y ys =>
    rw [hrev] at h1
    have hy : y = '*' := (List.cons_prefix_cons.mp (by simpa [HIDDEN] using h1)).1
    have hmem : '*' ∈ a2.reverse := by
      rw [hrev, ← hy]
      exact List.mem_cons_self y ys
    exact List.mem_reverse.mp hmem

lemma infixHiddenAppend {q t : List Char} (hq : '*' ∉ q) (hne : q ≠ [])
    (h : q <:+: HIDDEN ++ t) : q <:+: HIDDEN ∨ q <:+: t := by
  rcases infixAppendSplit HIDDEN h with h1 | h1 | h1
  · exact Or.inl h1
  · exact Or.inr h1
  · obtain ⟨a2, q2, hne2, hsuf, heq⟩ := h1
    have : '*' ∈ q := by
      rw [heq]
      exact List.mem_append_left q2 (starMemOfSuffix hne2 hsuf)
    exact absurd this hq

lemma replaceAllGo_pfx (p : List Char) :
    ∀ (fuel : Nat) (s q : List Char), '*' ∉ q → s.length ≤ fuel →
      q <+: replaceAllGo p HIDDEN fuel s → q <+: s := by
  intro fuel
  induction fuel with
  | zero =>
    intro s q _ _ h
    cases s <;> simpa [replaceAllGo] using h
  | succ fuel ih =>
    intro s q hq hlen h
    cases s with
    | nil => simpa [replaceAllGo] using h
    | cons c s' =>
      rw [replaceAllGo] at h
      by_cases hmatch : (!p.isEmpty && p.isPrefixOf (c :: s')) = true
      · rw [if_pos hmatch] at h
        cases q with
        | nil => exact List.nil_prefix
        | cons y q' =>
          have hy : y = '*' :=
            (List.cons_prefix_cons.mp (by simpa [HIDDEN] using h)).1
          have : '*' ∈ y :: q' := by
            rw [← hy]
            exact List.mem_cons_self y q'
          exact absurd this hq
      · rw [if_neg hmatch] at h
        cases q with
        | nil => exact List.nil_prefix
        | cons y q' =>
          obtain ⟨hy, hq'⟩ := List.cons_prefix_cons.mp h
          have hq'star : '*' ∉ q' := fun hm => hq (List.mem_cons_of_mem _ hm)
          have hlen' : s'.length ≤ fuel := by
            simp only [List.length_cons] at hlen
            omega
          exact List.cons_prefix_cons.mpr ⟨hy, ih s' q' hq'star hlen' hq'⟩

lemma replaceAllGo_keeps (p : List Char) {q : List Char} (hq : '*' ∉ q)
    (hne : q ≠ []) (hqH : ¬ q <:+: HIDDEN) :
    ∀ (fuel : Nat) (s : List Char), s.length ≤ fuel →
      q <:+: replaceAllGo p HIDDEN fuel s → q <:+: s := by
  intro fuel
  induction fuel with
  | zero =>
    intro s _ h
    cases s <;> simpa [replaceAllGo] using h
  | succ fuel ih =>
    intro s hlen h
    cases s with
    | nil => exact absurd (List.eq_nil_of_infix_nil
        (by simpa [replaceAllGo] using h)) hne
    | cons c s' =>
      rw [replaceAllGo] at h
      by_cases hmatch : (!p.isEmpty && p.isPrefixOf (c :: s')) = true
      · rw [if_pos hmatch] at h
        rcases infixHiddenAppend hq hne h with h1 | h1
        · exact absurd h1 hqH
        · have hp : p ≠ [] := by
            have hm := hmatch
            simp only [Bool.and_eq_true, Bool.not_eq_true',
              List.isEmpty_eq_false] at hm
            exact hm.1
          have hlen' : ((c :: s').drop p.length).length ≤ fuel := by
            have := List.length_pos.mpr hp
            simp only [List.length_drop, List.length_cons]
            simp only [List.length_cons] at hlen
            omega
          exact infixOfDrop (ih _ hlen' h1)
      · rw [if_neg hmatch] at h
        rcases infixConsSplit h with h1 | h1
        · cases q with
          | nil => exact absurd rfl hne
          | cons y q' =>
            obtain ⟨hy, hq'⟩ := List.cons_prefix_cons.mp h1
            have hq'star : '*' ∉ q' := fun hm => hq (List.mem_cons_of_mem _ hm)
            have hlen' : s'.length ≤ fuel := by
              simp only [List.length_cons] at hlen
              omega
            exact infixOfPfx (List.cons_prefix_cons.mpr
              ⟨hy, replaceAllGo_pfx p fuel s' q' hq'star hlen' hq'⟩)
        · have hlen' : s'.length ≤ fuel := by
            simp only [List.length_cons] at hlen
            omega
          exact infixCons c (ih s' hlen' h1)

lemma replaceAllGo_self {p : List Char} (hp : '*' ∉ p) (hne : p ≠ [])
    (hpH : ¬ p <:+: HIDDEN) :
    ∀ (fuel : Nat) (s : List Char), s.length ≤ fuel →
      ¬ p <:+: replaceAllGo p HIDDEN fuel s := by
  intro fuel
  induction fuel with
  | zero =>
    intro s hlen h
    have hs : s = [] := List.length_eq_zero.mp (Nat.le_zero.mp hlen)
    subst hs
    exact hne (List.eq_nil_of_infix_nil (by simpa [replaceAllGo] using h))
  | succ fuel ih =>
    intro s hlen h
    cases s with
    | nil => exact hne (List.eq_nil_of_infix_nil
        (by simpa [replaceAllGo] using h))
    | cons c s' =>
      rw [replaceAllGo] at h
      by_cases hmatch : (!p.isEmpty && p.isPrefixOf (c :: s')) = true
      · rw [if_pos hmatch] at h
        rcases infixHiddenAppend hp hne h with h1 | h1
        · exact hpH h1
        · have hlen' : ((c :: s').drop p.length).length ≤ fuel := by
            have := List.length_pos.mpr hne
            simp only [List.length_drop, List.length_cons]
            simp only [List.length_cons] at hlen
            omega
          exact ih _ hlen' h1
      · rw [if_neg hmatch] at h
        rcases infixConsSplit h with h1 | h1
        · cases hpc : p with
          | nil => exact hne hpc
          | cons y p' =>
            rw [hpc] at h1 hp
            obtain ⟨hy, hp'⟩ := List.cons_prefix_cons.mp h1
            have hp'star : '*' ∉ p' := fun hm => hp (List.mem_cons_of_mem _ hm)
            have hlen' : s'.length ≤ fuel := by
              simp only [List.length_cons] at hlen
              omega
            have hpfx : (y :: p') <+: c :: s' := List.cons_prefix_cons.mpr
              ⟨hy, replaceAllGo_pfx p fuel s' p' hp'star hlen' (by rw [hpc]; exact hp')⟩
            apply hmatch
            rw [hpc]
            simp only [Bool.and_eq_true, Bool.not_eq_true',
              List.isEmpty_eq_false, List.isPrefixOf_iff_prefix]
            exact ⟨by simp, hpfx⟩
        · have hlen' : s'.length ≤ fuel := by
            simp only [List.length_cons] at hlen
            omega
          exact ih s' hlen' h1

lemma replaceAll_keeps (p : List Char) {q : List Char} (hq : '*' ∉ q)
    (hne : q ≠ []) (hqH : ¬ q <:+: HIDDEN) {s : List Char}
    (h : q <:+: replaceAll p HIDDEN s) : q <:+: s :=
  replaceAllGo_keeps p hq hne hqH s.length s le_rfl h

lemma replaceAll_self {p : List Char} (hp : '*' ∉ p) (hne : p ≠ [])
    (hpH : ¬ p <:+: HIDDEN) (s : List Char) :
    ¬ p <:+: replaceAll p HIDDEN s :=
  replaceAllGo_self hp hne hpH s.length s le_rfl

lemma foldl_replace_preserves {q : List Char} (hq : '*' ∉ q) (hne : q ≠ [])
    (hqH : ¬ q <:+: HIDDEN) :
    ∀ (ks : List (List Char)) (s : List Char), ¬ q <:+: s →
      ¬ q <:+: ks.foldl (fun acc k => replaceAll k HIDDEN acc) s := by
  intro ks
  induction ks with
  | nil => exact fun s hs h => hs h
  | cons k0 ks ih =>
    intro s hs h
    rw [List.foldl_cons] at h
    exact ih (replaceAll k0 HIDDEN s)
      (fun hk => hs (replaceAll_keeps k0 hq hne hqH hk)) h

lemma foldl_replace_kills :
    ∀ (ks : List (List Char)) (s : List Char),
      (∀ k ∈ ks, '*' ∉ k ∧ k ≠ [] ∧ ¬ k <:+: HIDDEN) →
      ∀ k ∈ ks, ¬ k <:+: ks.foldl (fun acc k => replaceAll k HIDDEN acc) s := by
  intro ks
  induction ks with
  | nil => intro s _ k hk; exact absurd hk (List.not_mem_nil k)
  | cons k0 ks ih =>
    intro s hclean k hk
    rw [List.foldl_cons]
    rcases List.mem_cons.mp hk with rfl | hk'
    · obtain ⟨h1, h2, h3⟩ := hclean k (List.mem_cons_self _ _)
      exact foldl_replace_preserves h1 h2 h3 ks (replaceAll k HIDDEN s)
        (replaceAll_self h1 h2 h3 s)
    · exact ih (replaceAll k0 HIDDEN s)
        (fun k' hk'' => hclean k' (List.mem_cons_of_mem _ hk'')) k hk'

/-- Claim C3 counterexample: the loaded API key `'DD'` survives — sanitizing
the error string `'DD'` replaces it with `'***HIDDEN***'`, and `'DD'` is a
substring of the marker itself, so the output still contains the key. -/
theorem C3_sanitize_cex :
    sanitize_error_message [['D', 'D']] [] ['D', 'D'] = HIDDEN ∧
    ['D', 'D'] <:+: sanitize_error_message [['D', 'D']] [] ['D', 'D'] := by
  have h : sanitize_error_message [['D', 'D']] [] ['D', 'D'] = HIDDEN := by
    decide
  exact ⟨h, by rw [h]; decide⟩

/-- Claim C3 (amended): provided no credential (API key or configured Gmail
app password) contains the character `'*'` and none occurs as a substring
of the redaction marker `'***HIDDEN***'`, the sanitized output contains no
API key and not the password as a substring — every known credential
substring is replaced by the fixed marker.  (Without the proviso the claim
fails: a credential that is a substring of the marker, e.g. `'DD'`, can
survive inside an inserted marker.) -/
theorem C3_error_sanitization (api_keys : List (List Char))
    (gmail_app_password : List Char) (error : List Char)
    (hkeys : ∀ k ∈ api_keys, '*' ∉ k ∧ k ≠ [] ∧ ¬ k <:+: HIDDEN)
    (hpwd : '*' ∉ gmail_app_password ∧ ¬ gmail_app_password <:+: HIDDEN) :
    (∀ k ∈ api_keys,
      ¬ k <:+: sanitize_error_message api_keys gmail_app_password error) ∧
    (gmail_app_password ≠ [] →
      ¬ gmail_app_password <:+:
        sanitize_error_message api_keys gmail_app_password error) := by
  unfold sanitize_error_message
  by_cases hp : gmail_app_password.isEmpty = true
  · have hpe : gmail_app_password = [] := List.isEmpty_iff.mp hp
    rw [hp]
    simp only [Bool.not_true, Bool.false_eq_true, if_false]
    exact ⟨fun k hk => foldl_replace_kills api_keys error hkeys k hk,
      fun hne => absurd hpe hne⟩
  · have hpne : gmail_app_password ≠ [] := by
      intro hcon
      exact hp (by rw [hcon]; rfl)
    have hb : (!gmail_app_password.isEmpty) = true := by
      simp only [Bool.not_eq_true']
      exact Bool.eq_false_iff.mpr hp
    rw [hb]
    simp only [if_true]
    constructor
    · intro k hk
      obtain ⟨h1, h2, h3⟩ := hkeys k hk
      exact fun h => foldl_replace_kills api_keys error hkeys k hk
        (replaceAll_keeps gmail_app_password h1 h2 h3 h)
    · exact fun _ => replaceAll_self hpwd.1 hpne hpwd.2 _

/-- Concrete instance of the amended C3: one key and a password, both
occurring in the error text, are absent from the sanitized output. -/
theorem C3_error_sanitization_witness :
    (¬ ['S', 'E', 'C', 'R', 'E', 'T', '1'] <:+:
      sanitize_error_message [['S', 'E', 'C', 'R', 'E', 'T', '1']]
        ['P', 'W', 'D', '9', '9']
        ['e', 'r', 'r', ' ', 'S', 'E', 'C', 'R', 'E', 'T', '1', ' ',
          'P', 'W', 'D', '9', '9']) ∧
    ¬ ['P', 'W', 'D', '9', '9'] <:+:
      sanitize_error_message [['S', 'E', 'C', 'R', 'E', 'T', '1']]
        ['P', 'W', 'D', '9', '9']
        ['e', 'r', 'r', ' ', 'S', 'E', 'C', 'R', 'E', 'T', '1', ' ',
          'P', 'W', 'D', '9', '9'] := by
  have h := C3_error_sanitization [['S', 'E', 'C', 'R', 'E', 'T', '1']]
    ['P', 'W', 'D', '9', '9']
    ['e', 'r', 'r', ' ', 'S', 'E', 'C', 'R', 'E', 'T', '1', ' ',
      'P', 'W', 'D', '9', '9']
    (by
      intro k hk
      simp only [List.mem_singleton] at hk
      subst hk
      exact ⟨by decide, by decide, by decide⟩)
    ⟨by decide, by decide⟩
  exact ⟨h.1 _ (by simp), h.2 (by decide)⟩

end TurkBBai
